import Mathlib

/-!
Verification of the escape/unescape codec of jsonescape (src/main.go).

Strings are modelled at the byte level as `List Nat` (each element a byte,
0..255).  The input of `jsonEscape` is modelled as the sequence of Unicode
code points that Go's range-over-string iteration yields for the string
(for valid UTF-8 input these are exactly the decoded scalar values); its
output, and both sides of `jsonUnescape`, are byte lists.
-/

namespace Jsonescape

/-- Lowercase hex digit byte for a value below 16, as produced by the fmt
package for the x verb (0-9 then a-f). -/
def hexDigit (d : Nat) : Nat :=
  if d < 10 then 48 + d else 87 + d

/-- The four lowercase hex digit bytes (most significant first) that the
format string in jsonEscape (src/main.go) produces for a value below
0x10000; every call site passes such a value. -/
def hex4 (v : Nat) : List Nat :=
  [hexDigit (v / 4096 % 16), hexDigit (v / 256 % 16),
   hexDigit (v / 16 % 16), hexDigit (v % 16)]

/-- The six bytes of a backslash-u escape of a value below 0x10000
(92 is the backslash byte, 117 the letter u). -/
def uEsc (v : Nat) : List Nat := 92 :: 117 :: hex4 v

/-- Models the rune write used everywhere in src/main.go:
bytes.Buffer.WriteRune, i.e. utf8.EncodeRune of the Go standard library.
A rune below 0x80 is written as one byte; otherwise UTF-8 encoded, except
that a surrogate value (0xD800-0xDFFF) or a value above 0x10FFFF is
replaced by U+FFFD (bytes 239, 191, 189) before encoding.  Go assembles
each byte as a bitwise or of patterns with disjoint bits (e.g.
0x80 or (r and 0x3F)), which equals the additions below; shifts and masks
equal division and remainder. -/
def encodeRune (r : Nat) : List Nat :=
  if r < 128 then [r]
  else if r < 2048 then [192 + r / 64, 128 + r % 64]
  else if (55296 ≤ r ∧ r ≤ 57343) ∨ 1114111 < r then [239, 191, 189]
  else if r < 65536 then [224 + r / 4096, 128 + r / 64 % 64, 128 + r % 64]
  else [240 + r / 262144, 128 + r / 4096 % 64, 128 + r / 64 % 64, 128 + r % 64]

/-- Plain UTF-8 encoding of a Unicode scalar value, with no replacement:
the byte representation that a valid Go string uses for the code point.
Used to state, at the byte level, what returning a given text means.  On
scalar values it agrees with encodeRune. -/
def utf8EncodeScalar (v : Nat) : List Nat :=
  if v < 128 then [v]
  else if v < 2048 then [192 + v / 64, 128 + v % 64]
  else if v < 65536 then [224 + v / 4096, 128 + v / 64 % 64, 128 + v % 64]
  else [240 + v / 262144, 128 + v / 4096 % 64, 128 + v / 64 % 64, 128 + v % 64]

/-- Byte representation of a text given as its code point sequence. -/
def utf8EncodeList (s : List Nat) : List Nat :=
  (s.map utf8EncodeScalar).flatten

/-- A Unicode scalar value: at most 0x10FFFF and not a surrogate. -/
abbrev IsScalar (v : Nat) : Prop := v ≤ 1114111 ∧ ¬(55296 ≤ v ∧ v ≤ 57343)

/-- Models utf16Surrogates (src/main.go lines 323-326).  Go computes
0xD800 + (r>>10)&0x3FF and 0xDC00 + r&0x3FF after r -= 0x10000; shift and
mask equal division and remainder by 1024. -/
def utf16Surrogates (r : Nat) : Nat × Nat :=
  let t := r - 65536
  (55296 + t / 1024 % 1024, 56320 + t % 1024)

/-- One iteration of the switch in jsonEscape (src/main.go lines 266-316):
the bytes appended for one code point r of the input, in the source's
branch order (named escapes, the three html-safe characters, control
characters, the ascii-only fold, pass-through via WriteRune). -/
def escapeRune (r : Nat) (asciiOnly htmlSafe : Bool) : List Nat :=
  if r = 34 then [92, 34]
  else if r = 92 then [92, 92]
  else if r = 8 then [92, 98]
  else if r = 12 then [92, 102]
  else if r = 10 then [92, 110]
  else if r = 13 then [92, 114]
  else if r = 9 then [92, 116]
  else if r = 60 then (if htmlSafe then uEsc 60 else encodeRune r)
  else if r = 62 then (if htmlSafe then uEsc 62 else encodeRune r)
  else if r = 38 then (if htmlSafe then uEsc 38 else encodeRune r)
  else if r < 32 then uEsc r
  else if asciiOnly ∧ 127 < r then
    (if r ≤ 65535 then uEsc r
     else uEsc (utf16Surrogates r).1 ++ uEsc (utf16Surrogates r).2)
  else encodeRune r

/-- Models jsonEscape (src/main.go lines 262-320): the concatenation of the
per-code-point renderings. -/
def jsonEscape (s : List Nat) (asciiOnly htmlSafe : Bool) : List Nat :=
  (s.map (fun r => escapeRune r asciiOnly htmlSafe)).flatten

/-- The four error kinds of the unescaper (src/main.go lines 342-394). -/
inductive UnescapeErr where
  | incompleteEscape
  | incompleteUnicodeEscape
  | invalidUnicodeEscape (hex : List Nat)
  | invalidEscapeChar (c : Nat)
deriving DecidableEq

/-- Value of one hex digit byte (0-9, a-f, A-F), none otherwise; the three
range tests mirror the switch in parseHexRune (src/main.go lines 402-418). -/
def hexVal (c : Nat) : Option Nat :=
  if 48 ≤ c ∧ c ≤ 57 then some (c - 48)
  else if 97 ≤ c ∧ c ≤ 102 then some (c - 97 + 10)
  else if 65 ≤ c ∧ c ≤ 70 then some (c - 65 + 10)
  else none

/-- The loop of parseHexRune (src/main.go lines 404-416): accumulate
r = r<<4 | digit over the bytes, returning at the first non-digit.  The
low four bits of r<<4 are clear, so the or equals r*16 + digit. -/
def parseHexLoop (r : Nat) : List Nat → Option Nat
  | [] => some r
  | c :: cs =>
    match hexVal c with
    | some d => parseHexLoop (r * 16 + d) cs
    | none => none

/-- Models parseHexRune (src/main.go lines 402-418).  Go iterates the four
bytes as a string (UTF-8 decoding), but a decoded rune is a hex digit
exactly when its byte is an ASCII hex digit byte, so success and value
agree with the byte-wise loop. -/
def parseHexRune (hex : List Nat) : Option Nat := parseHexLoop 0 hex

/-- The surrogate-pair lookahead of jsonUnescape (src/main.go lines
378-381): when the next six bytes are a contiguous backslash-u escape
whose four hex digits parse to a valid low surrogate (0xDC00-0xDFFF),
returns that value and the bytes after the second escape; otherwise none
(too few bytes, no backslash-u marker, bad hex, or value out of range),
in which case the unescaper falls back to emitting the first value alone. -/
def lowSurrogateSplit : List Nat → Option (Nat × List Nat)
  | b1 :: b2 :: g1 :: g2 :: g3 :: g4 :: rest4 =>
    if b1 = 92 ∧ b2 = 117 then
      match parseHexRune [g1, g2, g3, g4] with
      | some r2 => if 56320 ≤ r2 ∧ r2 ≤ 57343 then some (r2, rest4) else none
      | none => none
    else none
  | _ => none

theorem lowSurrogateSplit_length {l : List Nat} {r2 : Nat} {l4 : List Nat}
    (h : lowSurrogateSplit l = some (r2, l4)) : l.length = l4.length + 6 := by
  match l with
  | b1 :: b2 :: g1 :: g2 :: g3 :: g4 :: rest4 =>
    simp only [lowSurrogateSplit] at h
    split at h
    · split at h
      · split at h
        · simp at h
          simp [h.2]
        · simp at h
      · simp at h
    · simp at h
  | [] => simp [lowSurrogateSplit] at h
  | [x1] => simp [lowSurrogateSplit] at h
  | [x1, x2] => simp [lowSurrogateSplit] at h
  | [x1, x2, x3] => simp [lowSurrogateSplit] at h
  | [x1, x2, x3, x4] => simp [lowSurrogateSplit] at h
  | [x1, x2, x3, x4, x5] => simp [lowSurrogateSplit] at h

/-- Models jsonUnescape (src/main.go lines 329-400), scanning byte by byte.
Non-backslash bytes are copied verbatim (WriteByte); named escapes write
their ASCII byte; a u escape parses four hex digits, and a high-surrogate
value followed by a valid low-surrogate escape (lowSurrogateSplit)
combines both, consuming twelve bytes, otherwise the single value is
written with WriteRune (encodeRune).  Error cases follow the source
exactly. -/
def jsonUnescape : List Nat → Except UnescapeErr (List Nat)
  | [] => .ok []
  | c :: rest =>
    if c ≠ 92 then Except.map (fun t => c :: t) (jsonUnescape rest)
    else
      match rest with
      | [] => .error .incompleteEscape
      | e :: rest2 =>
        if e = 34 then Except.map (fun t => 34 :: t) (jsonUnescape rest2)
        else if e = 92 then Except.map (fun t => 92 :: t) (jsonUnescape rest2)
        else if e = 47 then Except.map (fun t => 47 :: t) (jsonUnescape rest2)
        else if e = 98 then Except.map (fun t => 8 :: t) (jsonUnescape rest2)
        else if e = 102 then Except.map (fun t => 12 :: t) (jsonUnescape rest2)
        else if e = 110 then Except.map (fun t => 10 :: t) (jsonUnescape rest2)
        else if e = 114 then Except.map (fun t => 13 :: t) (jsonUnescape rest2)
        else if e = 116 then Except.map (fun t => 9 :: t) (jsonUnescape rest2)
        else if e = 117 then
          match rest2 with
          | h1 :: h2 :: h3 :: h4 :: rest3 =>
            match parseHexRune [h1, h2, h3, h4] with
            | none => .error (.invalidUnicodeEscape [h1, h2, h3, h4])
            | some r =>
              if 55296 ≤ r ∧ r ≤ 56319 then
                match hs : lowSurrogateSplit rest3 with
                | some (r2, rest4) =>
                  Except.map
                    (fun t => encodeRune (65536 + (r - 55296) * 1024 + (r2 - 56320)) ++ t)
                    (jsonUnescape rest4)
                | none => Except.map (fun t => encodeRune r ++ t) (jsonUnescape rest3)
              else Except.map (fun t => encodeRune r ++ t) (jsonUnescape rest3)
          | _ => .error .incompleteUnicodeEscape
        else .error (.invalidEscapeChar e)
termination_by s => s.length
decreasing_by
  all_goals simp only [List.length_cons]
  all_goals first
    | omega
    | (rcases lowSurrogateSplit_length hs with h6; omega)

/-! Step lemmas: how jsonUnescape consumes one token. -/

theorem unescape_cons_ne {c : Nat} (hc : c ≠ 92) (rest : List Nat) :
    jsonUnescape (c :: rest) = Except.map (fun t => c :: t) (jsonUnescape rest) := by
  rw [jsonUnescape.eq_def]
  simp [hc]

theorem unescape_quote (rest : List Nat) :
    jsonUnescape (92 :: 34 :: rest) = Except.map (fun t => 34 :: t) (jsonUnescape rest) := by
  rw [jsonUnescape.eq_def]; norm_num

theorem unescape_backslash (rest : List Nat) :
    jsonUnescape (92 :: 92 :: rest) = Except.map (fun t => 92 :: t) (jsonUnescape rest) := by
  rw [jsonUnescape.eq_def]; norm_num

theorem unescape_slash (rest : List Nat) :
    jsonUnescape (92 :: 47 :: rest) = Except.map (fun t => 47 :: t) (jsonUnescape rest) := by
  rw [jsonUnescape.eq_def]; norm_num

theorem unescape_b (rest : List Nat) :
    jsonUnescape (92 :: 98 :: rest) = Except.map (fun t => 8 :: t) (jsonUnescape rest) := by
  rw [jsonUnescape.eq_def]; norm_num

theorem unescape_f (rest : List Nat) :
    jsonUnescape (92 :: 102 :: rest) = Except.map (fun t => 12 :: t) (jsonUnescape rest) := by
  rw [jsonUnescape.eq_def]; norm_num

theorem unescape_n (rest : List Nat) :
    jsonUnescape (92 :: 110 :: rest) = Except.map (fun t => 10 :: t) (jsonUnescape rest) := by
  rw [jsonUnescape.eq_def]; norm_num

theorem unescape_r (rest : List Nat) :
    jsonUnescape (92 :: 114 :: rest) = Except.map (fun t => 13 :: t) (jsonUnescape rest) := by
  rw [jsonUnescape.eq_def]; norm_num

theorem unescape_t (rest : List Nat) :
    jsonUnescape (92 :: 116 :: rest) = Except.map (fun t => 9 :: t) (jsonUnescape rest) := by
  rw [jsonUnescape.eq_def]; norm_num

theorem unescape_u_single {h1 h2 h3 h4 v : Nat} {rest : List Nat}
    (hp : parseHexRune [h1, h2, h3, h4] = some v)
    (hcase : ¬(55296 ≤ v ∧ v ≤ 56319) ∨ lowSurrogateSplit rest = none) :
    jsonUnescape (92 :: 117 :: h1 :: h2 :: h3 :: h4 :: rest)
      = Except.map (fun t => encodeRune v ++ t) (jsonUnescape rest) := by
  rw [jsonUnescape.eq_def]
  simp only [hp]
  norm_num
  intro hlo hhi
  have hnone : lowSurrogateSplit rest = none := by
    rcases hcase with h | h
    · exact absurd ⟨hlo, hhi⟩ h
    · exact h
  split
  · rename_i r2a rest4a heq
    rw [hnone] at heq
    exact Option.noConfusion heq
  · rfl

theorem unescape_u_pair {h1 h2 h3 h4 v r2 : Nat} {rest rest4 : List Nat}
    (hp : parseHexRune [h1, h2, h3, h4] = some v)
    (hv : 55296 ≤ v ∧ v ≤ 56319)
    (hsplit : lowSurrogateSplit rest = some (r2, rest4)) :
    jsonUnescape (92 :: 117 :: h1 :: h2 :: h3 :: h4 :: rest)
      = Except.map (fun t => encodeRune (65536 + (v - 55296) * 1024 + (r2 - 56320)) ++ t)
          (jsonUnescape rest4) := by
  rw [jsonUnescape.eq_def]
  simp only [hp]
  norm_num
  rw [if_pos hv]
  split
  · rename_i r2a rest4a heq
    rw [hsplit] at heq
    have hr : r2 = r2a ∧ rest4 = rest4a := by
      have := Option.some.inj heq
      exact ⟨congrArg Prod.fst this, congrArg Prod.snd this⟩
    rw [hr.1, hr.2]
  · rename_i heq
    rw [hsplit] at heq
    exact Option.noConfusion heq

/-! Facts about hex digits and parseHexRune. -/

theorem hexVal_some_bounds {c d : Nat} (h : hexVal c = some d) : d < 16 ∧ c < 128 := by
  simp only [hexVal] at h
  split_ifs at h with hA hB hC <;>
    simp only [Option.some.injEq] at h <;> omega

theorem hexVal_hexDigit (d : Nat) (h : d < 16) : hexVal (hexDigit d) = some d := by
  simp only [hexDigit, hexVal]
  split_ifs <;> first
    | (simp only [Option.some.injEq]; omega)
    | (exfalso; omega)

theorem parseHexRune_hex4 {v : Nat} (hv : v < 65536) : parseHexRune (hex4 v) = some v := by
  have e1 := hexVal_hexDigit (v / 4096 % 16) (Nat.mod_lt _ (by norm_num))
  have e2 := hexVal_hexDigit (v / 256 % 16) (Nat.mod_lt _ (by norm_num))
  have e3 := hexVal_hexDigit (v / 16 % 16) (Nat.mod_lt _ (by norm_num))
  have e4 := hexVal_hexDigit (v % 16) (Nat.mod_lt _ (by norm_num))
  simp only [hex4, parseHexRune, parseHexLoop, e1, e2, e3, e4]
  congr 1
  omega

theorem parseHexRune_some_facts {a b c d v : Nat}
    (h : parseHexRune [a, b, c, d] = some v) :
    (hexVal a).isSome ∧ (hexVal b).isSome ∧ (hexVal c).isSome ∧ (hexVal d).isSome ∧
      v < 65536 := by
  simp only [parseHexRune, parseHexLoop] at h
  cases ha : hexVal a <;> rw [ha] at h
  · simp at h
  cases hb : hexVal b <;> rw [hb] at h
  · simp at h
  cases hc : hexVal c <;> rw [hc] at h
  · simp at h
  cases hd : hexVal d <;> rw [hd] at h
  · simp at h
  rename_i va vb vc vd
  simp only [parseHexLoop, Option.some.injEq] at h
  have b1 := hexVal_some_bounds ha
  have b2 := hexVal_some_bounds hb
  have b3 := hexVal_some_bounds hc
  have b4 := hexVal_some_bounds hd
  refine ⟨rfl, rfl, rfl, rfl, ?_⟩
  omega

theorem parseHexRune_isSome {a b c d : Nat}
    (ha : (hexVal a).isSome) (hb : (hexVal b).isSome)
    (hc : (hexVal c).isSome) (hd : (hexVal d).isSome) :
    (parseHexRune [a, b, c, d]).isSome := by
  obtain ⟨va, hva⟩ := Option.isSome_iff_exists.mp ha
  obtain ⟨vb, hvb⟩ := Option.isSome_iff_exists.mp hb
  obtain ⟨vc, hvc⟩ := Option.isSome_iff_exists.mp hc
  obtain ⟨vd, hvd⟩ := Option.isSome_iff_exists.mp hd
  simp only [parseHexRune, parseHexLoop, hva, hvb, hvc, hvd, Option.isSome_some]

/-! Facts about the rune encoders. -/

theorem encodeRune_scalar {v : Nat} (hv : IsScalar v) :
    encodeRune v = utf8EncodeScalar v := by
  obtain ⟨hle, hns⟩ := hv
  simp only [encodeRune, utf8EncodeScalar]
  split_ifs <;> first | rfl | omega

theorem utf8EncodeScalar_mem {v b : Nat} (hb : b ∈ utf8EncodeScalar v) :
    (v < 128 ∧ b = v) ∨ 128 ≤ b := by
  simp only [utf8EncodeScalar] at hb
  split_ifs at hb <;> simp at hb <;> omega

theorem encodeRune_mem {v b : Nat} (hb : b ∈ encodeRune v) :
    (v < 128 ∧ b = v) ∨ 128 ≤ b := by
  simp only [encodeRune] at hb
  split_ifs at hb <;> simp at hb <;> omega

/-! Unescaping a backslash-free chunk copies it verbatim. -/

theorem unescape_append_safe {l : List Nat} (hl : ∀ b ∈ l, b ≠ 92) (rest : List Nat) :
    jsonUnescape (l ++ rest) = Except.map (fun t => l ++ t) (jsonUnescape rest) := by
  induction l with
  | nil =>
    rw [List.nil_append]
    cases jsonUnescape rest <;> simp [Except.map]
  | cons b l ih =>
    have hb : b ≠ 92 := hl b (List.mem_cons_self _ _)
    rw [List.cons_append, unescape_cons_ne hb,
      ih (fun x hx => hl x (List.mem_cons_of_mem _ hx))]
    cases jsonUnescape rest <;> simp [Except.map]

/-! Reduction lemmas for escapeRune, one per branch of the switch. -/

theorem escapeRune_34 (ao hs : Bool) : escapeRune 34 ao hs = [92, 34] := rfl

theorem escapeRune_92 (ao hs : Bool) : escapeRune 92 ao hs = [92, 92] := rfl

theorem escapeRune_8 (ao hs : Bool) : escapeRune 8 ao hs = [92, 98] := rfl

theorem escapeRune_12 (ao hs : Bool) : escapeRune 12 ao hs = [92, 102] := rfl

theorem escapeRune_10 (ao hs : Bool) : escapeRune 10 ao hs = [92, 110] := rfl

theorem escapeRune_13 (ao hs : Bool) : escapeRune 13 ao hs = [92, 114] := rfl

theorem escapeRune_9 (ao hs : Bool) : escapeRune 9 ao hs = [92, 116] := rfl

theorem escapeRune_60t (ao : Bool) : escapeRune 60 ao true = uEsc 60 := rfl

theorem escapeRune_62t (ao : Bool) : escapeRune 62 ao true = uEsc 62 := rfl

theorem escapeRune_38t (ao : Bool) : escapeRune 38 ao true = uEsc 38 := rfl

theorem escapeRune_60f (ao : Bool) : escapeRune 60 ao false = [60] := rfl

theorem escapeRune_62f (ao : Bool) : escapeRune 62 ao false = [62] := rfl

theorem escapeRune_38f (ao : Bool) : escapeRune 38 ao false = [38] := rfl

theorem escapeRune_ctl {v : Nat} (ao hs : Bool)
    (hne : v ≠ 8 ∧ v ≠ 12 ∧ v ≠ 10 ∧ v ≠ 13 ∧ v ≠ 9) (hlt : v < 32) :
    escapeRune v ao hs = uEsc v := by
  obtain ⟨n3, n4, n5, n6, n7⟩ := hne
  unfold escapeRune
  rw [if_neg (by omega), if_neg (by omega), if_neg n3, if_neg n4, if_neg n5, if_neg n6,
    if_neg n7, if_neg (by omega), if_neg (by omega), if_neg (by omega), if_pos hlt]

theorem escapeRune_not_special {v : Nat} (ao hs : Bool)
    (hne : v ≠ 34 ∧ v ≠ 92 ∧ v ≠ 60 ∧ v ≠ 62 ∧ v ≠ 38) (hge : 32 ≤ v) :
    escapeRune v ao hs =
      (if ao ∧ 127 < v then
        (if v ≤ 65535 then uEsc v
         else uEsc (utf16Surrogates v).1 ++ uEsc (utf16Surrogates v).2)
      else encodeRune v) := by
  obtain ⟨n1, n2, n8, n9, n10⟩ := hne
  unfold escapeRune
  rw [if_neg n1, if_neg n2, if_neg (by omega), if_neg (by omega), if_neg (by omega),
    if_neg (by omega), if_neg (by omega), if_neg n8, if_neg n9, if_neg n10,
    if_neg (by omega)]

theorem escapeRune_pass_ff {v : Nat} (hs : Bool)
    (hne : v ≠ 34 ∧ v ≠ 92 ∧ v ≠ 60 ∧ v ≠ 62 ∧ v ≠ 38) (hge : 32 ≤ v) :
    escapeRune v false hs = encodeRune v := by
  rw [escapeRune_not_special false hs hne hge, if_neg (by simp)]

/-! The per-code-point round trip with default flags. -/

theorem jsonEscape_nil (ao hs : Bool) : jsonEscape [] ao hs = [] := rfl

theorem jsonEscape_cons (v : Nat) (s : List Nat) (ao hs : Bool) :
    jsonEscape (v :: s) ao hs = escapeRune v ao hs ++ jsonEscape s ao hs := by
  simp [jsonEscape]

theorem unescape_escapeRune {v : Nat} (hv : IsScalar v) (rest : List Nat) :
    jsonUnescape (escapeRune v false false ++ rest)
      = Except.map (fun t => utf8EncodeScalar v ++ t) (jsonUnescape rest) := by
  by_cases hq : v = 34
  · subst hq
    rw [escapeRune_34, List.cons_append, List.cons_append, List.nil_append, unescape_quote]
    rfl
  by_cases hbs : v = 92
  · subst hbs
    rw [escapeRune_92, List.cons_append, List.cons_append, List.nil_append,
      unescape_backslash]
    rfl
  by_cases h8 : v = 8
  · subst h8
    rw [escapeRune_8, List.cons_append, List.cons_append, List.nil_append, unescape_b]
    rfl
  by_cases h12 : v = 12
  · subst h12
    rw [escapeRune_12, List.cons_append, List.cons_append, List.nil_append, unescape_f]
    rfl
  by_cases h10 : v = 10
  · subst h10
    rw [escapeRune_10, List.cons_append, List.cons_append, List.nil_append, unescape_n]
    rfl
  by_cases h13 : v = 13
  · subst h13
    rw [escapeRune_13, List.cons_append, List.cons_append, List.nil_append, unescape_r]
    rfl
  by_cases h9 : v = 9
  · subst h9
    rw [escapeRune_9, List.cons_append, List.cons_append, List.nil_append, unescape_t]
    rfl
  by_cases h60 : v = 60
  · subst h60
    rw [escapeRune_60f, List.cons_append, List.nil_append, unescape_cons_ne (by norm_num)]
    rfl
  by_cases h62 : v = 62
  · subst h62
    rw [escapeRune_62f, List.cons_append, List.nil_append, unescape_cons_ne (by norm_num)]
    rfl
  by_cases h38 : v = 38
  · subst h38
    rw [escapeRune_38f, List.cons_append, List.nil_append, unescape_cons_ne (by norm_num)]
    rfl
  by_cases hctl : v < 32
  · rw [escapeRune_ctl false false ⟨h8, h12, h10, h13, h9⟩ hctl]
    simp only [uEsc, hex4, List.cons_append]
    rw [unescape_u_single (parseHexRune_hex4 (by omega)) (Or.inl (by omega))]
    rw [encodeRune_scalar hv]
    rfl
  · rw [escapeRune_pass_ff false ⟨hq, hbs, h60, h62, h38⟩ (by omega),
      encodeRune_scalar hv]
    exact unescape_append_safe
      (fun b hb => by
        rcases utf8EncodeScalar_mem hb with ⟨hvlt, hbv⟩ | hge <;> omega) rest

theorem unescape_jsonEscape (t : List Nat) (ht : ∀ v ∈ t, IsScalar v) :
    jsonUnescape (jsonEscape t false false) = Except.ok (utf8EncodeList t) := by
  induction t with
  | nil =>
    rw [jsonEscape_nil, jsonUnescape.eq_def]
    rfl
  | cons v t ih =>
    rw [jsonEscape_cons,
      unescape_escapeRune (ht v (List.mem_cons_self _ _)),
      ih (fun x hx => ht x (List.mem_cons_of_mem _ hx))]
    simp [utf8EncodeList, Except.map]

/-! More small helpers. -/

theorem unescape_nil : jsonUnescape [] = Except.ok [] := by
  rw [jsonUnescape.eq_def]

theorem except_isOk_map {α β γ : Type} (f : α → β) (e : Except γ α) :
    (Except.map f e).isOk = e.isOk := by
  cases e <;> rfl

theorem lowSurrogateSplit_some {l : List Nat} {r2 : Nat} {l4 : List Nat}
    (h : lowSurrogateSplit l = some (r2, l4)) :
    ∃ g1 g2 g3 g4, l = 92 :: 117 :: g1 :: g2 :: g3 :: g4 :: l4 ∧
      parseHexRune [g1, g2, g3, g4] = some r2 ∧ 56320 ≤ r2 ∧ r2 ≤ 57343 := by
  match l with
  | b1 :: b2 :: g1 :: g2 :: g3 :: g4 :: rest4 =>
    simp only [lowSurrogateSplit] at h
    split at h
    · rename_i hb
      split at h
      · rename_i r2a hr2a
        split at h
        · rename_i hrange
          simp only [Option.some.injEq, Prod.mk.injEq] at h
          exact ⟨g1, g2, g3, g4,
            by rw [hb.1, hb.2, h.2], by rw [hr2a, h.1], by omega, by omega⟩
        · exact Option.noConfusion h
      · exact Option.noConfusion h
    · exact Option.noConfusion h
  | [] => simp [lowSurrogateSplit] at h
  | [x1] => simp [lowSurrogateSplit] at h
  | [x1, x2] => simp [lowSurrogateSplit] at h
  | [x1, x2, x3] => simp [lowSurrogateSplit] at h
  | [x1, x2, x3, x4] => simp [lowSurrogateSplit] at h
  | [x1, x2, x3, x4, x5] => simp [lowSurrogateSplit] at h

theorem hexDigit_bounds (d : Nat) (h : d < 16) :
    (48 ≤ hexDigit d ∧ hexDigit d ≤ 57) ∨ (97 ≤ hexDigit d ∧ hexDigit d ≤ 102) := by
  simp only [hexDigit]
  split_ifs <;> omega

theorem uEsc_mem {w b : Nat} (hb : b ∈ uEsc w) :
    b = 92 ∨ b = 117 ∨ (48 ≤ b ∧ b ≤ 57) ∨ (97 ≤ b ∧ b ≤ 102) := by
  have d1 := hexDigit_bounds (w / 4096 % 16) (Nat.mod_lt _ (by norm_num))
  have d2 := hexDigit_bounds (w / 256 % 16) (Nat.mod_lt _ (by norm_num))
  have d3 := hexDigit_bounds (w / 16 % 16) (Nat.mod_lt _ (by norm_num))
  have d4 := hexDigit_bounds (w % 16) (Nat.mod_lt _ (by norm_num))
  simp only [uEsc, hex4, List.mem_cons, List.not_mem_nil, or_false] at hb
  rcases hb with h | h | h | h | h | h <;> omega

/-! Claim C1. -/

/-- C1: for every text t of Unicode scalar values (hence containing no
unpaired surrogate values), unescaping the result of escaping t with
asciiOnly=false and htmlSafe=false succeeds and yields t again; at the
byte level the result is exactly the UTF-8 encoding of t. -/
theorem c1_round_trip (t : List Nat) (ht : ∀ v ∈ t, IsScalar v) :
    jsonUnescape (jsonEscape t false false) = Except.ok (utf8EncodeList t) :=
  unescape_jsonEscape t ht

/-- Witness for C1 at the text say "hi" (bytes of: say "hi"). -/
theorem c1_witness :
    (∀ v ∈ [115, 97, 121, 32, 34, 104, 105, 34], IsScalar v) ∧
      jsonUnescape (jsonEscape [115, 97, 121, 32, 34, 104, 105, 34] false false)
        = Except.ok (utf8EncodeList [115, 97, 121, 32, 34, 104, 105, 34]) :=
  ⟨by decide, c1_round_trip [115, 97, 121, 32, 34, 104, 105, 34] (by decide)⟩

/-! Claim C2 (corrected).  The source writes the lone value with Go
bytes.Buffer.WriteRune, and utf8.EncodeRune replaces a surrogate value by
U+FFFD, so a lone surrogate escape does NOT put the code point itself in
the output. -/

/-- C2 counterexample: unescaping the single escape backslash-u-D800
(bytes 92,117,100,56,48,48) succeeds but outputs the U+FFFD replacement
bytes 239,191,189 — not the code point 0xD800 itself, whose direct
three-byte encoding would be 237,160,128 (utf8EncodeScalar 55296). -/
theorem c2_counterexample :
    jsonUnescape [92, 117, 100, 56, 48, 48] = Except.ok [239, 191, 189] ∧
      jsonUnescape [92, 117, 100, 56, 48, 48] ≠ Except.ok (utf8EncodeScalar 55296) := by
  have h : jsonUnescape [92, 117, 100, 56, 48, 48] = Except.ok [239, 191, 189] := by
    have hp : parseHexRune [100, 56, 48, 48] = some 55296 := by decide
    rw [unescape_u_single hp (Or.inr (by decide)), unescape_nil]
    rfl
  refine ⟨h, ?_⟩
  rw [h]
  simp [utf8EncodeScalar]

/-- C2 as amended: a u escape whose value v is not a high surrogate, or is
a high surrogate with no valid low-surrogate continuation, never fails;
the cursor advances past the single 6-unit escape and the continuation is
unescaped independently; the bytes emitted for v are its UTF-8 encoding
when v is not a surrogate, and the U+FFFD replacement bytes 239,191,189
(from Go WriteRune) when v lies in the surrogate range 0xD800-0xDFFF. -/
theorem c2_unpaired_surrogate_amended {h1 h2 h3 h4 v : Nat} {rest : List Nat}
    (hp : parseHexRune [h1, h2, h3, h4] = some v)
    (hcase : ¬(55296 ≤ v ∧ v ≤ 56319) ∨ lowSurrogateSplit rest = none) :
    jsonUnescape (92 :: 117 :: h1 :: h2 :: h3 :: h4 :: rest)
        = Except.map (fun t => encodeRune v ++ t) (jsonUnescape rest)
      ∧ (¬(55296 ≤ v ∧ v ≤ 57343) → encodeRune v = utf8EncodeScalar v)
      ∧ (55296 ≤ v ∧ v ≤ 57343 → encodeRune v = [239, 191, 189]) := by
  have hlt : v < 65536 := (parseHexRune_some_facts hp).2.2.2.2
  refine ⟨unescape_u_single hp hcase, ?_, ?_⟩
  · intro hns
    exact encodeRune_scalar ⟨by omega, hns⟩
  · intro hs'
    simp only [encodeRune]
    rw [if_neg (by omega), if_neg (by omega), if_pos (Or.inl hs')]

/-- Witness for C2 (amended) at the lone low surrogate escape
backslash-u-DC00 followed by the byte of the letter A. -/
theorem c2_witness :
    jsonUnescape [92, 117, 100, 99, 48, 48, 65]
        = Except.map (fun t => encodeRune 56320 ++ t) (jsonUnescape [65])
      ∧ (¬(55296 ≤ 56320 ∧ 56320 ≤ 57343) → encodeRune 56320 = utf8EncodeScalar 56320)
      ∧ (55296 ≤ 56320 ∧ 56320 ≤ 57343 → encodeRune 56320 = [239, 191, 189]) :=
  c2_unpaired_surrogate_amended (by decide) (Or.inl (by decide))

/-! Claim C4. -/

/-- C4: a u escape with a high-surrogate value v immediately followed by a
contiguous u escape with a low-surrogate value v2 emits exactly one scalar
value, 0x10000 + (v-0xD800)*0x400 + (v2-0xDC00), and consumes all twelve
bytes, the remainder being unescaped independently. -/
theorem c4_surrogate_pair {h1 h2 h3 h4 g1 g2 g3 g4 v v2 : Nat} {rest : List Nat}
    (hp : parseHexRune [h1, h2, h3, h4] = some v)
    (hv : 55296 ≤ v ∧ v ≤ 56319)
    (hq : parseHexRune [g1, g2, g3, g4] = some v2)
    (hw : 56320 ≤ v2 ∧ v2 ≤ 57343) :
    jsonUnescape
        (92 :: 117 :: h1 :: h2 :: h3 :: h4 :: 92 :: 117 :: g1 :: g2 :: g3 :: g4 :: rest)
      = Except.map
          (fun t => utf8EncodeScalar (65536 + (v - 55296) * 1024 + (v2 - 56320)) ++ t)
          (jsonUnescape rest) := by
  have hsplit : lowSurrogateSplit (92 :: 117 :: g1 :: g2 :: g3 :: g4 :: rest)
      = some (v2, rest) := by
    simp only [lowSurrogateSplit, hq]
    simp [hw]
  rw [unescape_u_pair hp hv hsplit,
    encodeRune_scalar (by constructor <;> omega)]

/-- Witness for C4: backslash-uD83D backslash-uDC4B decodes to U+1F44B. -/
theorem c4_witness :
    jsonUnescape [92, 117, 100, 56, 51, 100, 92, 117, 100, 99, 52, 98]
      = Except.map
          (fun t => utf8EncodeScalar (65536 + (55357 - 55296) * 1024 + (56395 - 56320)) ++ t)
          (jsonUnescape []) :=
  c4_surrogate_pair (by decide) (by decide) (by decide) (by decide)

/-! Claim C5. -/

theorem unescape_two_uEsc {w1 w2 : Nat} (hw1 : 55296 ≤ w1 ∧ w1 ≤ 56319)
    (hw2 : 56320 ≤ w2 ∧ w2 ≤ 57343) (rest : List Nat) :
    jsonUnescape (uEsc w1 ++ uEsc w2 ++ rest)
      = Except.map
          (fun t => encodeRune (65536 + (w1 - 55296) * 1024 + (w2 - 56320)) ++ t)
          (jsonUnescape rest) := by
  have hp1 : parseHexRune (hex4 w1) = some w1 := parseHexRune_hex4 (by omega)
  have hp2 : parseHexRune (hex4 w2) = some w2 := parseHexRune_hex4 (by omega)
  simp only [hex4] at hp1 hp2
  have hsplit : lowSurrogateSplit (uEsc w2 ++ rest) = some (w2, rest) := by
    simp only [uEsc, hex4, List.cons_append, lowSurrogateSplit, hp2]
    simp [hw2]
  have hshape : uEsc w1 ++ uEsc w2 ++ rest
      = 92 :: 117 :: hexDigit (w1 / 4096 % 16) :: hexDigit (w1 / 256 % 16)
          :: hexDigit (w1 / 16 % 16) :: hexDigit (w1 % 16) :: (uEsc w2 ++ rest) := by
    simp [uEsc, hex4]
  rw [hshape, unescape_u_pair hp1 hw1 hsplit]

/-- C5: with asciiOnly=true, every scalar value v above 0x7F is rendered as
a single backslash-u escape when v fits in 16 bits, and otherwise as the
two escapes for (high, low) in that order with
high = 0xD800 + (v-0x10000)/1024 and low = 0xDC00 + (v-0x10000) mod 1024;
in both cases unescaping the rendering succeeds and yields exactly v
(its UTF-8 bytes). -/
theorem c5_ascii_fold (v : Nat) (hs : Bool) (hv : IsScalar v) (hgt : 127 < v) :
    jsonEscape [v] true hs =
        (if v ≤ 65535 then uEsc v
         else uEsc (55296 + (v - 65536) / 1024) ++ uEsc (56320 + (v - 65536) % 1024))
      ∧ jsonUnescape (jsonEscape [v] true hs) = Except.ok (utf8EncodeScalar v) := by
  obtain ⟨hle, hns⟩ := hv
  have h1 : jsonEscape [v] true hs =
      (if v ≤ 65535 then uEsc v
       else uEsc (55296 + (v - 65536) / 1024) ++ uEsc (56320 + (v - 65536) % 1024)) := by
    rw [jsonEscape_cons, jsonEscape_nil, List.append_nil,
      escapeRune_not_special true hs
        ⟨by omega, by omega, by omega, by omega, by omega⟩ (by omega),
      if_pos ⟨rfl, hgt⟩]
    by_cases h16 : v ≤ 65535
    · rw [if_pos h16, if_pos h16]
    · rw [if_neg h16, if_neg h16,
        show (utf16Surrogates v).1 = 55296 + (v - 65536) / 1024 % 1024 from rfl,
        show (utf16Surrogates v).2 = 56320 + (v - 65536) % 1024 from rfl,
        Nat.mod_eq_of_lt (show (v - 65536) / 1024 < 1024 by omega)]
  refine ⟨h1, ?_⟩
  rw [h1]
  by_cases h16 : v ≤ 65535
  · rw [if_pos h16]
    have hp : parseHexRune (hex4 v) = some v := parseHexRune_hex4 (by omega)
    simp only [hex4] at hp
    have hshape : uEsc v = 92 :: 117 :: hexDigit (v / 4096 % 16) :: hexDigit (v / 256 % 16)
        :: hexDigit (v / 16 % 16) :: hexDigit (v % 16) :: [] := by
      simp [uEsc, hex4]
    rw [hshape, unescape_u_single hp (Or.inl (by omega)), unescape_nil,
      encodeRune_scalar ⟨hle, hns⟩]
    simp [Except.map]
  · rw [if_neg h16,
      show uEsc (55296 + (v - 65536) / 1024) ++ uEsc (56320 + (v - 65536) % 1024)
        = uEsc (55296 + (v - 65536) / 1024) ++ uEsc (56320 + (v - 65536) % 1024) ++ []
        from (List.append_nil _).symm,
      unescape_two_uEsc ⟨by omega, by omega⟩ ⟨by omega, by omega⟩ [],
      show 65536 + (55296 + (v - 65536) / 1024 - 55296) * 1024
          + (56320 + (v - 65536) % 1024 - 56320) = v by omega,
      encodeRune_scalar ⟨hle, hns⟩, unescape_nil]
    simp [Except.map]

/-- Witness for C5 at v = 233 (one escape) and v = 128075 (pair). -/
theorem c5_witness :
    (jsonEscape [233] true false =
        (if 233 ≤ 65535 then uEsc 233
         else uEsc (55296 + (233 - 65536) / 1024) ++ uEsc (56320 + (233 - 65536) % 1024))
      ∧ jsonUnescape (jsonEscape [233] true false) = Except.ok (utf8EncodeScalar 233))
    ∧ (jsonEscape [128075] true false =
        (if 128075 ≤ 65535 then uEsc 128075
         else uEsc (55296 + (128075 - 65536) / 1024)
          ++ uEsc (56320 + (128075 - 65536) % 1024))
      ∧ jsonUnescape (jsonEscape [128075] true false)
          = Except.ok (utf8EncodeScalar 128075)) :=
  ⟨c5_ascii_fold 233 false (by decide) (by decide),
   c5_ascii_fold 128075 false (by decide) (by decide)⟩

/-! Claim C7. -/

/-- C7: with any flags, a value in [0x00,0x1F] that is not one of the five
named control escapes is rendered as the six bytes backslash-u-0-0-X-X
with lowercase hex digits; in particular escaping the two-code-point text
0x00 0x1F with default flags gives backslash-u0000 backslash-u001f. -/
theorem c7_control_chars :
    (∀ (ao hs : Bool) (v : Nat), v < 32 → v ≠ 8 → v ≠ 12 → v ≠ 10 → v ≠ 13 → v ≠ 9 →
      jsonEscape [v] ao hs = [92, 117, 48, 48, hexDigit (v / 16), hexDigit (v % 16)])
    ∧ jsonEscape [0, 31] false false
        = [92, 117, 48, 48, 48, 48, 92, 117, 48, 48, 49, 102] := by
  constructor
  · intro ao hs v hlt n3 n4 n5 n6 n7
    rw [jsonEscape_cons, jsonEscape_nil, List.append_nil,
      escapeRune_ctl ao hs ⟨n3, n4, n5, n6, n7⟩ hlt]
    simp only [uEsc, hex4]
    rw [show v / 4096 % 16 = 0 by omega, show v / 256 % 16 = 0 by omega,
      show v / 16 % 16 = v / 16 by omega]
    rfl
  · decide

/-- Witness for C7 at v = 17 with both flags set. -/
theorem c7_witness :
    jsonEscape [17] true true = [92, 117, 48, 48, 49, 49] := by
  have h := c7_control_chars.1 true true 17 (by decide) (by decide) (by decide)
    (by decide) (by decide) (by decide)
  rw [h]
  rfl

/-! Claim C8. -/

/-- C8: escaping with default flags is the identity (the UTF-8 bytes of the
text) on every text that contains no quote, no backslash, none of the
three html characters, and no control character below 0x20. -/
theorem c8_passthrough (s : List Nat)
    (h : ∀ c ∈ s, IsScalar c ∧ c ≠ 34 ∧ c ≠ 92 ∧ c ≠ 60 ∧ c ≠ 62 ∧ c ≠ 38 ∧ ¬(c < 32)) :
    jsonEscape s false false = utf8EncodeList s := by
  induction s with
  | nil => rfl
  | cons c s ih =>
    obtain ⟨hsc, h34, h92, h60, h62, h38, hge⟩ := h c (List.mem_cons_self _ _)
    rw [jsonEscape_cons, escapeRune_pass_ff false ⟨h34, h92, h60, h62, h38⟩ (by omega),
      encodeRune_scalar hsc, ih (fun x hx => h x (List.mem_cons_of_mem _ hx))]
    simp [utf8EncodeList]

/-- Witness for C8 at the text hi followed by U+00E9. -/
theorem c8_witness :
    (∀ c ∈ [104, 105, 233],
      IsScalar c ∧ c ≠ 34 ∧ c ≠ 92 ∧ c ≠ 60 ∧ c ≠ 62 ∧ c ≠ 38 ∧ ¬(c < 32)) ∧
    jsonEscape [104, 105, 233] false false = utf8EncodeList [104, 105, 233] :=
  ⟨by decide, c8_passthrough [104, 105, 233] (by decide)⟩

/-! Claim C6. -/

theorem escapeRune_mem_no_html {v b : Nat} (ao : Bool) (hb : b ∈ escapeRune v ao true) :
    b ≠ 60 ∧ b ≠ 62 ∧ b ≠ 38 := by
  by_cases hq : v = 34
  · subst hq; rw [escapeRune_34] at hb; simp at hb; omega
  by_cases hbs : v = 92
  · subst hbs; rw [escapeRune_92] at hb; simp at hb; omega
  by_cases h8 : v = 8
  · subst h8; rw [escapeRune_8] at hb; simp at hb; omega
  by_cases h12 : v = 12
  · subst h12; rw [escapeRune_12] at hb; simp at hb; omega
  by_cases h10 : v = 10
  · subst h10; rw [escapeRune_10] at hb; simp at hb; omega
  by_cases h13 : v = 13
  · subst h13; rw [escapeRune_13] at hb; simp at hb; omega
  by_cases h9 : v = 9
  · subst h9; rw [escapeRune_9] at hb; simp at hb; omega
  by_cases h60 : v = 60
  · subst h60; rw [escapeRune_60t] at hb
    rcases uEsc_mem hb with h | h | h | h <;> omega
  by_cases h62 : v = 62
  · subst h62; rw [escapeRune_62t] at hb
    rcases uEsc_mem hb with h | h | h | h <;> omega
  by_cases h38 : v = 38
  · subst h38; rw [escapeRune_38t] at hb
    rcases uEsc_mem hb with h | h | h | h <;> omega
  by_cases hctl : v < 32
  · rw [escapeRune_ctl ao true ⟨h8, h12, h10, h13, h9⟩ hctl] at hb
    rcases uEsc_mem hb with h | h | h | h <;> omega
  rw [escapeRune_not_special ao true ⟨hq, hbs, h60, h62, h38⟩ (by omega)] at hb
  by_cases hfold : (ao = true) ∧ 127 < v
  · rw [if_pos hfold] at hb
    by_cases h16 : v ≤ 65535
    · rw [if_pos h16] at hb
      rcases uEsc_mem hb with h | h | h | h <;> omega
    · rw [if_neg h16] at hb
      rcases List.mem_append.mp hb with h | h <;>
        rcases uEsc_mem h with h | h | h | h <;> omega
  · rw [if_neg hfold] at hb
    rcases encodeRune_mem hb with ⟨hvlt, hbv⟩ | hge <;> omega

theorem jsonEscape_mem {s : List Nat} {ao hs : Bool} {b : Nat} :
    b ∈ jsonEscape s ao hs ↔ ∃ v ∈ s, b ∈ escapeRune v ao hs := by
  simp [jsonEscape]

/-- C6: with htmlSafe=true the output of jsonEscape contains no literal
byte for any of the three characters 60 (<), 62 (>), 38 (&), each being
rendered as the escapes backslash-u003c / u003e / u0026; with
htmlSafe=false each of the three passes through unchanged, and jsonEscape
distributes over concatenation, so this determines every occurrence. -/
theorem c6_html_safe :
    (∀ (s : List Nat) (ao : Bool),
        60 ∉ jsonEscape s ao true ∧ 62 ∉ jsonEscape s ao true ∧
          38 ∉ jsonEscape s ao true)
    ∧ (∀ ao : Bool,
        jsonEscape [60] ao true = [92, 117, 48, 48, 51, 99] ∧
        jsonEscape [62] ao true = [92, 117, 48, 48, 51, 101] ∧
        jsonEscape [38] ao true = [92, 117, 48, 48, 50, 54])
    ∧ (∀ ao : Bool,
        jsonEscape [60] ao false = [60] ∧ jsonEscape [62] ao false = [62] ∧
        jsonEscape [38] ao false = [38])
    ∧ (∀ (s t : List Nat) (ao hs : Bool),
        jsonEscape (s ++ t) ao hs = jsonEscape s ao hs ++ jsonEscape t ao hs) := by
  refine ⟨?_, ?_, ?_, ?_⟩
  · intro s ao
    refine ⟨fun hmem => ?_, fun hmem => ?_, fun hmem => ?_⟩ <;>
      obtain ⟨v, hv, hb⟩ := jsonEscape_mem.mp hmem
    · exact (escapeRune_mem_no_html ao hb).1 rfl
    · exact (escapeRune_mem_no_html ao hb).2.1 rfl
    · exact (escapeRune_mem_no_html ao hb).2.2 rfl
  · intro ao
    refine ⟨?_, ?_, ?_⟩ <;> rw [jsonEscape_cons, jsonEscape_nil, List.append_nil] <;> rfl
  · intro ao
    refine ⟨?_, ?_, ?_⟩ <;> rw [jsonEscape_cons, jsonEscape_nil, List.append_nil] <;> rfl
  · intro s t ao hs
    simp [jsonEscape]

/-- Witness for C6 at concrete inputs. -/
theorem c6_witness :
    60 ∉ jsonEscape [60, 97] true true ∧ jsonEscape [60] false false = [60] :=
  ⟨(c6_html_safe.1 [60, 97] true).1, (c6_html_safe.2.2.1 false).1⟩

/-! Claim C3: error taxonomy.  specWellFormed is written from the claim
wording and compared against the unescaper. -/

/-- Refinement predicate following the wording of claim C3 (spec sections
4.2 and 7): the inputs that trigger none of the four error cases.  A byte
other than a backslash is always fine; a backslash must not be last and
must be followed by a recognized escape character; after u, four bytes
must remain and all four must be hex digits. -/
def specWellFormed : List Nat → Bool
  | [] => true
  | c :: rest =>
    if c = 92 then
      match rest with
      | [] => false
      | e :: rest2 =>
        if e = 34 ∨ e = 92 ∨ e = 47 ∨ e = 98 ∨ e = 102 ∨ e = 110 ∨ e = 114 ∨ e = 116 then
          specWellFormed rest2
        else if e = 117 then
          match rest2 with
          | h1 :: h2 :: h3 :: h4 :: rest3 =>
            (hexVal h1).isSome && (hexVal h2).isSome && (hexVal h3).isSome &&
              (hexVal h4).isSome && specWellFormed rest3
          | _ => false
        else false
    else specWellFormed rest

theorem unescape_u_parse_err {h1 h2 h3 h4 : Nat} {rest : List Nat}
    (hp : parseHexRune [h1, h2, h3, h4] = none) :
    jsonUnescape (92 :: 117 :: h1 :: h2 :: h3 :: h4 :: rest)
      = Except.error (.invalidUnicodeEscape [h1, h2, h3, h4]) := by
  rw [jsonUnescape.eq_def]
  simp only [hp]
  norm_num

theorem unescape_u_short {cs : List Nat} (hlen : cs.length < 4) :
    jsonUnescape (92 :: 117 :: cs) = Except.error .incompleteUnicodeEscape := by
  match cs with
  | [] => rw [jsonUnescape.eq_def]; norm_num
  | [x1] => rw [jsonUnescape.eq_def]; norm_num
  | [x1, x2] => rw [jsonUnescape.eq_def]; norm_num
  | [x1, x2, x3] => rw [jsonUnescape.eq_def]; norm_num
  | x1 :: x2 :: x3 :: x4 :: tl => exact absurd hlen (by simp)

theorem unescape_trailing_bs : jsonUnescape [92] = Except.error .incompleteEscape := by
  rw [jsonUnescape.eq_def]
  norm_num

theorem unescape_invalid_char {e : Nat} (rest : List Nat)
    (hne : e ≠ 34 ∧ e ≠ 92 ∧ e ≠ 47 ∧ e ≠ 98 ∧ e ≠ 102 ∧ e ≠ 110 ∧ e ≠ 114 ∧
      e ≠ 116 ∧ e ≠ 117) :
    jsonUnescape (92 :: e :: rest) = Except.error (.invalidEscapeChar e) := by
  obtain ⟨n1, n2, n3, n4, n5, n6, n7, n8, n9⟩ := hne
  rw [jsonUnescape.eq_def]
  norm_num [n1, n2, n3, n4, n5, n6, n7, n8, n9]

theorem swf_cons_ne {c : Nat} (hc : c ≠ 92) (rest : List Nat) :
    specWellFormed (c :: rest) = specWellFormed rest := by
  conv_lhs => rw [specWellFormed.eq_def]
  simp [hc]

theorem swf_named {e : Nat} (rest : List Nat)
    (he : e = 34 ∨ e = 92 ∨ e = 47 ∨ e = 98 ∨ e = 102 ∨ e = 110 ∨ e = 114 ∨ e = 116) :
    specWellFormed (92 :: e :: rest) = specWellFormed rest := by
  conv_lhs => rw [specWellFormed.eq_def]
  norm_num [he]

theorem swf_u (h1 h2 h3 h4 : Nat) (rest : List Nat) :
    specWellFormed (92 :: 117 :: h1 :: h2 :: h3 :: h4 :: rest)
      = ((hexVal h1).isSome && (hexVal h2).isSome && (hexVal h3).isSome &&
          (hexVal h4).isSome && specWellFormed rest) := rfl

theorem swf_invalid {e : Nat} (rest : List Nat)
    (hne : e ≠ 34 ∧ e ≠ 92 ∧ e ≠ 47 ∧ e ≠ 98 ∧ e ≠ 102 ∧ e ≠ 110 ∧ e ≠ 114 ∧
      e ≠ 116 ∧ e ≠ 117) :
    specWellFormed (92 :: e :: rest) = false := by
  obtain ⟨n1, n2, n3, n4, n5, n6, n7, n8, n9⟩ := hne
  conv_lhs => rw [specWellFormed.eq_def]
  norm_num [n1, n2, n3, n4, n5, n6, n7, n8, n9]

theorem unescape_isOk_spec (s : List Nat) : (jsonUnescape s).isOk = specWellFormed s := by
  induction s using jsonUnescape.induct with
  | case1 => rw [unescape_nil]; rfl
  | case2 c cs hc ih =>
    rw [unescape_cons_ne hc, except_isOk_map, ih, swf_cons_ne hc]
  | case3 c hc =>
    have hc92 : c = 92 := by omega
    subst hc92
    rw [unescape_trailing_bs]
    rfl
  | case4 c hc cs ih =>
    have hc92 : c = 92 := by omega
    subst hc92
    rw [unescape_quote, except_isOk_map, ih, swf_named cs (by norm_num)]
  | case5 c hc cs n1 ih =>
    have hc92 : c = 92 := by omega
    subst hc92
    rw [unescape_backslash, except_isOk_map, ih, swf_named cs (by norm_num)]
  | case6 c hc cs n1 n2 ih =>
    have hc92 : c = 92 := by omega
    subst hc92
    rw [unescape_slash, except_isOk_map, ih, swf_named cs (by norm_num)]
  | case7 c hc cs n1 n2 n3 ih =>
    have hc92 : c = 92 := by omega
    subst hc92
    rw [unescape_b, except_isOk_map, ih, swf_named cs (by norm_num)]
  | case8 c hc cs n1 n2 n3 n4 ih =>
    have hc92 : c = 92 := by omega
    subst hc92
    rw [unescape_f, except_isOk_map, ih, swf_named cs (by norm_num)]
  | case9 c hc cs n1 n2 n3 n4 n5 ih =>
    have hc92 : c = 92 := by omega
    subst hc92
    rw [unescape_n, except_isOk_map, ih, swf_named cs (by norm_num)]
  | case10 c hc cs n1 n2 n3 n4 n5 n6 ih =>
    have hc92 : c = 92 := by omega
    subst hc92
    rw [unescape_r, except_isOk_map, ih, swf_named cs (by norm_num)]
  | case11 c hc cs n1 n2 n3 n4 n5 n6 n7 ih =>
    have hc92 : c = 92 := by omega
    subst hc92
    rw [unescape_t, except_isOk_map, ih, swf_named cs (by norm_num)]
  | case12 c hc h1 h2 h3 h4 rest3 hp n1 n2 n3 n4 n5 n6 n7 n8 =>
    have hc92 : c = 92 := by omega
    subst hc92
    rw [unescape_u_parse_err hp, swf_u]
    have hno : ¬((hexVal h1).isSome = true ∧ (hexVal h2).isSome = true ∧
        (hexVal h3).isSome = true ∧ (hexVal h4).isSome = true) := by
      rintro ⟨a1, a2, a3, a4⟩
      have := parseHexRune_isSome a1 a2 a3 a4
      rw [hp] at this
      simp at this
    cases ha : (hexVal h1).isSome <;> cases hb : (hexVal h2).isSome <;>
      cases hcc : (hexVal h3).isSome <;> cases hd : (hexVal h4).isSome <;>
      simp_all [Except.isOk, Except.toBool]
  | case13 c hc h1 h2 h3 h4 rest3 r hp hrange r2 rest4 hsplit n1 n2 n3 n4 n5 n6 n7 n8 ih =>
    have hc92 : c = 92 := by omega
    subst hc92
    rw [unescape_u_pair hp hrange hsplit, except_isOk_map, ih]
    obtain ⟨g1, g2, g3, g4, heq, hq, _, _⟩ := lowSurrogateSplit_some hsplit
    subst heq
    obtain ⟨a1, a2, a3, a4, _⟩ := parseHexRune_some_facts hp
    obtain ⟨b1, b2, b3, b4, _⟩ := parseHexRune_some_facts hq
    rw [swf_u, swf_u, a1, a2, a3, a4, b1, b2, b3, b4]
    simp
  | case14 c hc h1 h2 h3 h4 rest3 r hp hrange hsplit n1 n2 n3 n4 n5 n6 n7 n8 ih =>
    have hc92 : c = 92 := by omega
    subst hc92
    rw [unescape_u_single hp (Or.inr hsplit), except_isOk_map, ih]
    obtain ⟨a1, a2, a3, a4, _⟩ := parseHexRune_some_facts hp
    rw [swf_u, a1, a2, a3, a4]
    simp
  | case15 c hc h1 h2 h3 h4 rest3 r hp hrange n1 n2 n3 n4 n5 n6 n7 n8 ih =>
    have hc92 : c = 92 := by omega
    subst hc92
    rw [unescape_u_single hp (Or.inl hrange), except_isOk_map, ih]
    obtain ⟨a1, a2, a3, a4, _⟩ := parseHexRune_some_facts hp
    rw [swf_u, a1, a2, a3, a4]
    simp
  | case16 c hc cs hshort n1 n2 n3 n4 n5 n6 n7 n8 =>
    have hc92 : c = 92 := by omega
    subst hc92
    match cs with
    | [] => rw [unescape_u_short (by simp)]; rfl
    | [x1] => rw [unescape_u_short (by simp)]; rfl
    | [x1, x2] => rw [unescape_u_short (by simp)]; rfl
    | [x1, x2, x3] => rw [unescape_u_short (by simp)]; rfl
    | x1 :: x2 :: x3 :: x4 :: tl => exact absurd rfl (fun h => hshort x1 x2 x3 x4 tl h)
  | case17 c hc e cs hn1 hn2 hn3 hn4 hn5 hn6 hn7 hn8 hn9 =>
    have hc92 : c = 92 := by omega
    subst hc92
    rw [unescape_invalid_char cs ⟨hn1, hn2, hn3, hn4, hn5, hn6, hn7, hn8, hn9⟩,
      swf_invalid cs ⟨hn1, hn2, hn3, hn4, hn5, hn6, hn7, hn8, hn9⟩]
    rfl

/-- C3: the unescaper fails with exactly the specified error kind at each
boundary: trailing lone backslash (IncompleteEscape), backslash before an
unrecognized character (InvalidEscapeChar), backslash-u with fewer than
four bytes left (IncompleteUnicodeEscape), backslash-u with a non-hex
digit among the four (InvalidUnicodeEscape); and it succeeds on exactly
the inputs that trigger none of these cases (specWellFormed). -/
theorem c3_error_boundaries :
    jsonUnescape [104, 101, 108, 108, 111, 92] = Except.error .incompleteEscape
    ∧ jsonUnescape [104, 101, 108, 108, 111, 92, 120]
        = Except.error (.invalidEscapeChar 120)
    ∧ jsonUnescape [104, 101, 108, 108, 111, 92, 117, 48, 48]
        = Except.error .incompleteUnicodeEscape
    ∧ jsonUnescape [104, 101, 108, 108, 111, 92, 117, 88, 88, 88, 88]
        = Except.error (.invalidUnicodeEscape [88, 88, 88, 88])
    ∧ ∀ s : List Nat, (jsonUnescape s).isOk = specWellFormed s := by
  refine ⟨?_, ?_, ?_, ?_, unescape_isOk_spec⟩
  · rw [show [104, 101, 108, 108, 111, 92] = [104, 101, 108, 108, 111] ++ [92] from rfl,
      unescape_append_safe (by decide), unescape_trailing_bs]
    rfl
  · rw [show [104, 101, 108, 108, 111, 92, 120]
        = [104, 101, 108, 108, 111] ++ 92 :: 120 :: [] from rfl,
      unescape_append_safe (by decide), unescape_invalid_char [] (by norm_num)]
    rfl
  · rw [show [104, 101, 108, 108, 111, 92, 117, 48, 48]
        = [104, 101, 108, 108, 111] ++ 92 :: 117 :: [48, 48] from rfl,
      unescape_append_safe (by decide), unescape_u_short (by norm_num)]
    rfl
  · rw [show [104, 101, 108, 108, 111, 92, 117, 88, 88, 88, 88]
        = [104, 101, 108, 108, 111] ++ 92 :: 117 :: 88 :: 88 :: 88 :: 88 :: [] from rfl,
      unescape_append_safe (by decide), unescape_u_parse_err (by decide)]
    rfl

/-! Claim C9: the escaper's output is a valid JSON string body. -/

/-- Follows the wording of claim C9: a byte list is a valid JSON string
body when it has no raw byte below 0x20, no unescaped double quote, and
every backslash starts a well-formed escape (a named escape or
backslash-u with four hex digits). -/
def validJsonBody : List Nat → Bool
  | [] => true
  | c :: rest =>
    if c = 92 then
      match rest with
      | [] => false
      | e :: rest2 =>
        if e = 34 ∨ e = 92 ∨ e = 47 ∨ e = 98 ∨ e = 102 ∨ e = 110 ∨ e = 114 ∨ e = 116 then
          validJsonBody rest2
        else if e = 117 then
          match rest2 with
          | h1 :: h2 :: h3 :: h4 :: rest3 =>
            (hexVal h1).isSome && (hexVal h2).isSome && (hexVal h3).isSome &&
              (hexVal h4).isSome && validJsonBody rest3
          | _ => false
        else false
    else if 32 ≤ c ∧ c ≠ 34 then validJsonBody rest else false

theorem vjb_cons_plain {c : Nat} (hc : c ≠ 92) (h32 : 32 ≤ c) (h34 : c ≠ 34)
    (rest : List Nat) : validJsonBody (c :: rest) = validJsonBody rest := by
  conv_lhs => rw [validJsonBody.eq_def]
  simp [hc, h32, h34]

theorem vjb_named {e : Nat} (rest : List Nat)
    (he : e = 34 ∨ e = 92 ∨ e = 47 ∨ e = 98 ∨ e = 102 ∨ e = 110 ∨ e = 114 ∨ e = 116) :
    validJsonBody (92 :: e :: rest) = validJsonBody rest := by
  conv_lhs => rw [validJsonBody.eq_def]
  norm_num [he]

theorem vjb_u (h1 h2 h3 h4 : Nat) (rest : List Nat) :
    validJsonBody (92 :: 117 :: h1 :: h2 :: h3 :: h4 :: rest)
      = ((hexVal h1).isSome && (hexVal h2).isSome && (hexVal h3).isSome &&
          (hexVal h4).isSome && validJsonBody rest) := rfl

theorem vjb_append_plain {l : List Nat} (hl : ∀ b ∈ l, 32 ≤ b ∧ b ≠ 34 ∧ b ≠ 92)
    (rest : List Nat) : validJsonBody (l ++ rest) = validJsonBody rest := by
  induction l with
  | nil => rw [List.nil_append]
  | cons b l ih =>
    obtain ⟨h32, h34, h92⟩ := hl b (List.mem_cons_self _ _)
    rw [List.cons_append, vjb_cons_plain h92 h32 h34,
      ih (fun x hx => hl x (List.mem_cons_of_mem _ hx))]

theorem vjb_uEsc (w : Nat) (rest : List Nat) :
    validJsonBody (uEsc w ++ rest) = validJsonBody rest := by
  have e1 := hexVal_hexDigit (w / 4096 % 16) (Nat.mod_lt _ (by norm_num))
  have e2 := hexVal_hexDigit (w / 256 % 16) (Nat.mod_lt _ (by norm_num))
  have e3 := hexVal_hexDigit (w / 16 % 16) (Nat.mod_lt _ (by norm_num))
  have e4 := hexVal_hexDigit (w % 16) (Nat.mod_lt _ (by norm_num))
  rw [show uEsc w ++ rest = 92 :: 117 :: hexDigit (w / 4096 % 16)
      :: hexDigit (w / 256 % 16) :: hexDigit (w / 16 % 16) :: hexDigit (w % 16) :: rest
      from by simp [uEsc, hex4],
    vjb_u, e1, e2, e3, e4]
  simp

theorem escapeRune_validJsonBody {v : Nat} (ao hs : Bool) (hv : v ≤ 1114111)
    (rest : List Nat) :
    validJsonBody (escapeRune v ao hs ++ rest) = validJsonBody rest := by
  by_cases hq : v = 34
  · subst hq; rw [escapeRune_34, show ([92, 34] : List Nat) ++ rest = 92 :: 34 :: rest
      from rfl, vjb_named rest (by norm_num)]
  by_cases hbs : v = 92
  · subst hbs; rw [escapeRune_92, show ([92, 92] : List Nat) ++ rest = 92 :: 92 :: rest
      from rfl, vjb_named rest (by norm_num)]
  by_cases h8 : v = 8
  · subst h8; rw [escapeRune_8, show ([92, 98] : List Nat) ++ rest = 92 :: 98 :: rest
      from rfl, vjb_named rest (by norm_num)]
  by_cases h12 : v = 12
  · subst h12; rw [escapeRune_12, show ([92, 102] : List Nat) ++ rest = 92 :: 102 :: rest
      from rfl, vjb_named rest (by norm_num)]
  by_cases h10 : v = 10
  · subst h10; rw [escapeRune_10, show ([92, 110] : List Nat) ++ rest = 92 :: 110 :: rest
      from rfl, vjb_named rest (by norm_num)]
  by_cases h13 : v = 13
  · subst h13; rw [escapeRune_13, show ([92, 114] : List Nat) ++ rest = 92 :: 114 :: rest
      from rfl, vjb_named rest (by norm_num)]
  by_cases h9 : v = 9
  · subst h9; rw [escapeRune_9, show ([92, 116] : List Nat) ++ rest = 92 :: 116 :: rest
      from rfl, vjb_named rest (by norm_num)]
  by_cases h60 : v = 60
  · subst h60
    cases hs
    · rw [escapeRune_60f, show ([60] : List Nat) ++ rest = 60 :: rest from rfl,
        vjb_cons_plain (by norm_num) (by norm_num) (by norm_num)]
    · rw [escapeRune_60t, vjb_uEsc]
  by_cases h62 : v = 62
  · subst h62
    cases hs
    · rw [escapeRune_62f, show ([62] : List Nat) ++ rest = 62 :: rest from rfl,
        vjb_cons_plain (by norm_num) (by norm_num) (by norm_num)]
    · rw [escapeRune_62t, vjb_uEsc]
  by_cases h38 : v = 38
  · subst h38
    cases hs
    · rw [escapeRune_38f, show ([38] : List Nat) ++ rest = 38 :: rest from rfl,
        vjb_cons_plain (by norm_num) (by norm_num) (by norm_num)]
    · rw [escapeRune_38t, vjb_uEsc]
  by_cases hctl : v < 32
  · rw [escapeRune_ctl ao hs ⟨h8, h12, h10, h13, h9⟩ hctl, vjb_uEsc]
  rw [escapeRune_not_special ao hs ⟨hq, hbs, h60, h62, h38⟩ (by omega)]
  by_cases hfold : (ao = true) ∧ 127 < v
  · rw [if_pos hfold]
    by_cases h16 : v ≤ 65535
    · rw [if_pos h16, vjb_uEsc]
    · rw [if_neg h16, List.append_assoc, vjb_uEsc, vjb_uEsc]
  · rw [if_neg hfold]
    exact vjb_append_plain
      (fun b hb => by
        rcases encodeRune_mem hb with ⟨hvlt, hbv⟩ | hge <;> omega) rest

/-- C9: for any text of Unicode scalar values and any flag combination, the
output of jsonEscape is a valid JSON string body: no raw byte below 0x20,
no unescaped double quote, and every backslash starts a well-formed
escape. -/
theorem c9_escape_valid_body (s : List Nat) (ao hs : Bool)
    (hsc : ∀ v ∈ s, IsScalar v) :
    validJsonBody (jsonEscape s ao hs) = true := by
  induction s with
  | nil => rfl
  | cons v t ih =>
    rw [jsonEscape_cons,
      escapeRune_validJsonBody ao hs (hsc v (List.mem_cons_self _ _)).1,
      ih (fun x hx => hsc x (List.mem_cons_of_mem _ hx))]

/-- Witness for C9 at a text with a quote, a newline, a control character
and a non-BMP code point, with both flags set. -/
theorem c9_witness :
    (∀ v ∈ [34, 10, 31, 60, 128075], IsScalar v) ∧
      validJsonBody (jsonEscape [34, 10, 31, 60, 128075] true true) = true :=
  ⟨by decide, c9_escape_valid_body [34, 10, 31, 60, 128075] true true (by decide)⟩

/-! Claim C10: unescaping valid UTF-8 yields valid UTF-8. -/

/-- Continuation byte test (0x80-0xBF). -/
def isCont (b : Nat) : Bool := decide (128 ≤ b ∧ b ≤ 191)

/-- Models Go utf8.ValidString on a byte list: the standard UTF-8
acceptance table (RFC 3629), with surrogate ranges and overlong or
too-large encodings excluded by the second-byte restrictions. -/
def validUtf8 : List Nat → Bool
  | [] => true
  | b :: rest =>
    if b < 128 then validUtf8 rest
    else
      match rest with
      | [] => false
      | c1 :: rest1 =>
        if 194 ≤ b ∧ b ≤ 223 then isCont c1 && validUtf8 rest1
        else
          match rest1 with
          | [] => false
          | c2 :: rest2 =>
            if b = 224 then
              decide (160 ≤ c1 ∧ c1 ≤ 191) && isCont c2 && validUtf8 rest2
            else if 225 ≤ b ∧ b ≤ 236 then isCont c1 && isCont c2 && validUtf8 rest2
            else if b = 237 then
              decide (128 ≤ c1 ∧ c1 ≤ 159) && isCont c2 && validUtf8 rest2
            else if 238 ≤ b ∧ b ≤ 239 then isCont c1 && isCont c2 && validUtf8 rest2
            else
              match rest2 with
              | [] => false
              | c3 :: rest3 =>
                if b = 240 then
                  decide (144 ≤ c1 ∧ c1 ≤ 191) && isCont c2 && isCont c3 &&
                    validUtf8 rest3
                else if 241 ≤ b ∧ b ≤ 243 then
                  isCont c1 && isCont c2 && isCont c3 && validUtf8 rest3
                else if b = 244 then
                  decide (128 ≤ c1 ∧ c1 ≤ 143) && isCont c2 && isCont c3 &&
                    validUtf8 rest3
                else false

theorem vu_ascii {b : Nat} (hb : b < 128) (rest : List Nat) :
    validUtf8 (b :: rest) = validUtf8 rest := by
  conv_lhs => rw [validUtf8.eq_def]
  simp [hb]

theorem vu2 {b c1 : Nat} (hb : 194 ≤ b ∧ b ≤ 223) (hc : 128 ≤ c1 ∧ c1 ≤ 191)
    (rest : List Nat) : validUtf8 (b :: c1 :: rest) = validUtf8 rest := by
  have nb : ¬(b < 128) := by omega
  conv_lhs => rw [validUtf8.eq_def]
  simp [isCont, nb, hb.1, hb.2, hc.1, hc.2]

theorem vu3_e0 {c1 c2 : Nat} (h1 : 160 ≤ c1 ∧ c1 ≤ 191) (h2 : 128 ≤ c2 ∧ c2 ≤ 191)
    (rest : List Nat) : validUtf8 (224 :: c1 :: c2 :: rest) = validUtf8 rest := by
  conv_lhs => rw [validUtf8.eq_def]
  simp [isCont, h1.1, h1.2, h2.1, h2.2]

theorem vu3_mid {b c1 c2 : Nat} (hb : 225 ≤ b ∧ b ≤ 236)
    (h1 : 128 ≤ c1 ∧ c1 ≤ 191) (h2 : 128 ≤ c2 ∧ c2 ≤ 191) (rest : List Nat) :
    validUtf8 (b :: c1 :: c2 :: rest) = validUtf8 rest := by
  have nb1 : ¬(b < 128) := by omega
  have nb2 : ¬(194 ≤ b ∧ b ≤ 223) := by omega
  have nb3 : b ≠ 224 := by omega
  conv_lhs => rw [validUtf8.eq_def]
  simp [isCont, nb1, nb2, nb3, hb.1, hb.2, h1.1, h1.2, h2.1, h2.2]

theorem vu3_ed {c1 c2 : Nat} (h1 : 128 ≤ c1 ∧ c1 ≤ 159) (h2 : 128 ≤ c2 ∧ c2 ≤ 191)
    (rest : List Nat) : validUtf8 (237 :: c1 :: c2 :: rest) = validUtf8 rest := by
  conv_lhs => rw [validUtf8.eq_def]
  simp [isCont, h1.1, h1.2, h2.1, h2.2]

theorem vu3_ee {b c1 c2 : Nat} (hb : 238 ≤ b ∧ b ≤ 239)
    (h1 : 128 ≤ c1 ∧ c1 ≤ 191) (h2 : 128 ≤ c2 ∧ c2 ≤ 191) (rest : List Nat) :
    validUtf8 (b :: c1 :: c2 :: rest) = validUtf8 rest := by
  have nb1 : ¬(b < 128) := by omega
  have nb2 : ¬(194 ≤ b ∧ b ≤ 223) := by omega
  have nb3 : b ≠ 224 := by omega
  have nb4 : ¬(225 ≤ b ∧ b ≤ 236) := by omega
  have nb5 : b ≠ 237 := by omega
  conv_lhs => rw [validUtf8.eq_def]
  simp [isCont, nb1, nb2, nb3, nb4, nb5, hb.1, hb.2, h1.1, h1.2, h2.1, h2.2]

theorem vu4_f0 {c1 c2 c3 : Nat} (h1 : 144 ≤ c1 ∧ c1 ≤ 191)
    (h2 : 128 ≤ c2 ∧ c2 ≤ 191) (h3 : 128 ≤ c3 ∧ c3 ≤ 191) (rest : List Nat) :
    validUtf8 (240 :: c1 :: c2 :: c3 :: rest) = validUtf8 rest := by
  conv_lhs => rw [validUtf8.eq_def]
  simp [isCont, h1.1, h1.2, h2.1, h2.2, h3.1, h3.2]

theorem vu4_mid {b c1 c2 c3 : Nat} (hb : 241 ≤ b ∧ b ≤ 243)
    (h1 : 128 ≤ c1 ∧ c1 ≤ 191) (h2 : 128 ≤ c2 ∧ c2 ≤ 191)
    (h3 : 128 ≤ c3 ∧ c3 ≤ 191) (rest : List Nat) :
    validUtf8 (b :: c1 :: c2 :: c3 :: rest) = validUtf8 rest := by
  have nb1 : ¬(b < 128) := by omega
  have nb2 : ¬(194 ≤ b ∧ b ≤ 223) := by omega
  have nb3 : b ≠ 224 := by omega
  have nb4 : ¬(225 ≤ b ∧ b ≤ 236) := by omega
  have nb5 : b ≠ 237 := by omega
  have nb6 : ¬(238 ≤ b ∧ b ≤ 239) := by omega
  have nb7 : b ≠ 240 := by omega
  conv_lhs => rw [validUtf8.eq_def]
  simp [isCont, nb1, nb2, nb3, nb4, nb5, nb6, nb7, hb.1, hb.2,
    h1.1, h1.2, h2.1, h2.2, h3.1, h3.2]

theorem vu4_f4 {c1 c2 c3 : Nat} (h1 : 128 ≤ c1 ∧ c1 ≤ 143)
    (h2 : 128 ≤ c2 ∧ c2 ≤ 191) (h3 : 128 ≤ c3 ∧ c3 ≤ 191) (rest : List Nat) :
    validUtf8 (244 :: c1 :: c2 :: c3 :: rest) = validUtf8 rest := by
  conv_lhs => rw [validUtf8.eq_def]
  simp [isCont, h1.1, h1.2, h2.1, h2.2, h3.1, h3.2]

theorem validUtf8_encodeRune (v : Nat) (rest : List Nat) :
    validUtf8 (encodeRune v ++ rest) = validUtf8 rest := by
  simp only [encodeRune]
  split_ifs with hA hB hC hD
  · rw [show ([v] : List Nat) ++ rest = v :: rest from rfl, vu_ascii hA]
  · rw [show ([192 + v / 64, 128 + v % 64] : List Nat) ++ rest
        = (192 + v / 64) :: (128 + v % 64) :: rest from rfl,
      vu2 ⟨by omega, by omega⟩ ⟨by omega, by omega⟩]
  · rw [show ([239, 191, 189] : List Nat) ++ rest = 239 :: 191 :: 189 :: rest from rfl,
      vu3_ee ⟨by norm_num, by norm_num⟩ ⟨by norm_num, by norm_num⟩
        ⟨by norm_num, by norm_num⟩]
  · rw [show ([224 + v / 4096, 128 + v / 64 % 64, 128 + v % 64] : List Nat) ++ rest
        = (224 + v / 4096) :: (128 + v / 64 % 64) :: (128 + v % 64) :: rest from rfl]
    by_cases h1 : v < 4096
    · rw [show 224 + v / 4096 = 224 by omega]
      exact vu3_e0 ⟨by omega, by omega⟩ ⟨by omega, by omega⟩ rest
    by_cases h2 : v < 53248
    · exact vu3_mid ⟨by omega, by omega⟩ ⟨by omega, by omega⟩ ⟨by omega, by omega⟩ rest
    by_cases h3 : v < 57344
    · rw [show 224 + v / 4096 = 237 by omega]
      exact vu3_ed ⟨by omega, by omega⟩ ⟨by omega, by omega⟩ rest
    · exact vu3_ee ⟨by omega, by omega⟩ ⟨by omega, by omega⟩ ⟨by omega, by omega⟩ rest
  · rw [show ([240 + v / 262144, 128 + v / 4096 % 64, 128 + v / 64 % 64, 128 + v % 64]
        : List Nat) ++ rest
        = (240 + v / 262144) :: (128 + v / 4096 % 64) :: (128 + v / 64 % 64)
          :: (128 + v % 64) :: rest from rfl]
    by_cases h1 : v < 262144
    · rw [show 240 + v / 262144 = 240 by omega]
      exact vu4_f0 ⟨by omega, by omega⟩ ⟨by omega, by omega⟩ ⟨by omega, by omega⟩ rest
    by_cases h2 : v < 1048576
    · exact vu4_mid ⟨by omega, by omega⟩ ⟨by omega, by omega⟩ ⟨by omega, by omega⟩
        ⟨by omega, by omega⟩ rest
    · rw [show 240 + v / 262144 = 244 by omega]
      exact vu4_f4 ⟨by omega, by omega⟩ ⟨by omega, by omega⟩ ⟨by omega, by omega⟩ rest

theorem validUtf8_head_high {b : Nat} {rest : List Nat} (hb : 128 ≤ b)
    (h : validUtf8 (b :: rest) = true) :
    ∃ bs rest2, rest = bs ++ rest2 ∧ 1 ≤ bs.length ∧ bs.length ≤ 3 ∧
      (∀ x ∈ bs, 128 ≤ x ∧ x ≤ 191) ∧ validUtf8 rest2 = true ∧
      ∀ out : List Nat, validUtf8 out = true → validUtf8 (b :: (bs ++ out)) = true := by
  conv at h => lhs; rw [validUtf8.eq_def]
  dsimp only at h
  rw [if_neg (by omega)] at h
  rcases rest with _ | ⟨c1, rest1⟩
  · simp at h
  dsimp only at h
  by_cases hb2 : 194 ≤ b ∧ b ≤ 223
  · rw [if_pos hb2] at h
    simp only [isCont, Bool.and_eq_true, decide_eq_true_eq] at h
    refine ⟨[c1], rest1, rfl, by simp, by simp, ?_, h.2, ?_⟩
    · intro x hx
      simp at hx
      omega
    · intro out hout
      rw [show b :: ([c1] ++ out) = b :: c1 :: out from rfl, vu2 hb2 h.1, hout]
  rw [if_neg hb2] at h
  rcases rest1 with _ | ⟨c2, rest2⟩
  · simp at h
  dsimp only at h
  by_cases hb3 : b = 224
  · subst hb3
    rw [if_pos rfl] at h
    simp only [isCont, Bool.and_eq_true, decide_eq_true_eq] at h
    refine ⟨[c1, c2], rest2, rfl, by simp, by simp, ?_, h.2, ?_⟩
    · intro x hx
      simp at hx
      rcases hx with rfl | rfl <;> omega
    · intro out hout
      rw [show 224 :: ([c1, c2] ++ out) = 224 :: c1 :: c2 :: out from rfl,
        vu3_e0 h.1.1 h.1.2, hout]
  rw [if_neg hb3] at h
  by_cases hb4 : 225 ≤ b ∧ b ≤ 236
  · rw [if_pos hb4] at h
    simp only [isCont, Bool.and_eq_true, decide_eq_true_eq] at h
    refine ⟨[c1, c2], rest2, rfl, by simp, by simp, ?_, h.2, ?_⟩
    · intro x hx
      simp at hx
      rcases hx with rfl | rfl <;> omega
    · intro out hout
      rw [show b :: ([c1, c2] ++ out) = b :: c1 :: c2 :: out from rfl,
        vu3_mid hb4 h.1.1 h.1.2, hout]
  rw [if_neg hb4] at h
  by_cases hb5 : b = 237
  · subst hb5
    rw [if_pos rfl] at h
    simp only [isCont, Bool.and_eq_true, decide_eq_true_eq] at h
    refine ⟨[c1, c2], rest2, rfl, by simp, by simp, ?_, h.2, ?_⟩
    · intro x hx
      simp at hx
      rcases hx with rfl | rfl <;> omega
    · intro out hout
      rw [show 237 :: ([c1, c2] ++ out) = 237 :: c1 :: c2 :: out from rfl,
        vu3_ed h.1.1 h.1.2, hout]
  rw [if_neg hb5] at h
  by_cases hb6 : 238 ≤ b ∧ b ≤ 239
  · rw [if_pos hb6] at h
    simp only [isCont, Bool.and_eq_true, decide_eq_true_eq] at h
    refine ⟨[c1, c2], rest2, rfl, by simp, by simp, ?_, h.2, ?_⟩
    · intro x hx
      simp at hx
      rcases hx with rfl | rfl <;> omega
    · intro out hout
      rw [show b :: ([c1, c2] ++ out) = b :: c1 :: c2 :: out from rfl,
        vu3_ee hb6 h.1.1 h.1.2, hout]
  rw [if_neg hb6] at h
  rcases rest2 with _ | ⟨c3, rest3⟩
  · simp at h
  dsimp only at h
  by_cases hb7 : b = 240
  · subst hb7
    rw [if_pos rfl] at h
    simp only [isCont, Bool.and_eq_true, decide_eq_true_eq] at h
    refine ⟨[c1, c2, c3], rest3, rfl, by simp, by simp, ?_, h.2, ?_⟩
    · intro x hx
      simp at hx
      rcases hx with rfl | rfl | rfl <;> omega
    · intro out hout
      rw [show 240 :: ([c1, c2, c3] ++ out) = 240 :: c1 :: c2 :: c3 :: out from rfl,
        vu4_f0 h.1.1.1 h.1.1.2 h.1.2, hout]
  rw [if_neg hb7] at h
  by_cases hb8 : 241 ≤ b ∧ b ≤ 243
  · rw [if_pos hb8] at h
    simp only [isCont, Bool.and_eq_true, decide_eq_true_eq] at h
    refine ⟨[c1, c2, c3], rest3, rfl, by simp, by simp, ?_, h.2, ?_⟩
    · intro x hx
      simp at hx
      rcases hx with rfl | rfl | rfl <;> omega
    · intro out hout
      rw [show b :: ([c1, c2, c3] ++ out) = b :: c1 :: c2 :: c3 :: out from rfl,
        vu4_mid hb8 h.1.1.1 h.1.1.2 h.1.2, hout]
  rw [if_neg hb8] at h
  by_cases hb9 : b = 244
  · subst hb9
    rw [if_pos rfl] at h
    simp only [isCont, Bool.and_eq_true, decide_eq_true_eq] at h
    refine ⟨[c1, c2, c3], rest3, rfl, by simp, by simp, ?_, h.2, ?_⟩
    · intro x hx
      simp at hx
      rcases hx with rfl | rfl | rfl <;> omega
    · intro out hout
      rw [show 244 :: ([c1, c2, c3] ++ out) = 244 :: c1 :: c2 :: c3 :: out from rfl,
        vu4_f4 h.1.1.1 h.1.1.2 h.1.2, hout]
  rw [if_neg hb9] at h
  simp at h

theorem except_map_cons_ok {c : Nat} {e : Except UnescapeErr (List Nat)}
    {y : List Nat} (h : Except.map (fun t => c :: t) e = Except.ok y) :
    ∃ t, e = Except.ok t ∧ y = c :: t := by
  cases e with
  | error err => simp [Except.map] at h
  | ok t =>
    refine ⟨t, rfl, ?_⟩
    simp [Except.map] at h
    exact h.symm

theorem except_map_append_ok {l : List Nat} {e : Except UnescapeErr (List Nat)}
    {y : List Nat} (h : Except.map (fun t => l ++ t) e = Except.ok y) :
    ∃ t, e = Except.ok t ∧ y = l ++ t := by
  cases e with
  | error err => simp [Except.map] at h
  | ok t =>
    refine ⟨t, rfl, ?_⟩
    simp [Except.map] at h
    exact h.symm

set_option maxRecDepth 2000 in
theorem unescape_preserves_validUtf8 :
    ∀ (n : Nat) (s : List Nat), s.length ≤ n → validUtf8 s = true →
      ∀ out : List Nat, jsonUnescape s = Except.ok out → validUtf8 out = true := by
  intro n
  induction n with
  | zero =>
    intro s hlen hv out hu
    rcases s with _ | ⟨b, rest⟩
    · rw [unescape_nil] at hu
      injection hu with h2
      rw [← h2]
      rfl
    · simp at hlen
  | succ n ih =>
    intro s hlen hv out hu
    rcases s with _ | ⟨b, rest⟩
    · rw [unescape_nil] at hu
      injection hu with h2
      rw [← h2]
      rfl
    by_cases hb92 : b = 92
    · subst hb92
      have hvrest : validUtf8 rest = true := by
        rw [vu_ascii (by norm_num)] at hv
        exact hv
      rcases rest with _ | ⟨e, rest2⟩
      · rw [unescape_trailing_bs] at hu
        exact Except.noConfusion hu
      by_cases he34 : e = 34
      · subst he34
        rw [unescape_quote] at hu
        obtain ⟨t, ht, hout⟩ := except_map_cons_ok hu
        subst hout
        rw [vu_ascii (by norm_num)] at hvrest
        rw [vu_ascii (by norm_num)]
        exact ih rest2 (by simp at hlen; omega) hvrest t ht
      by_cases he92 : e = 92
      · subst he92
        rw [unescape_backslash] at hu
        obtain ⟨t, ht, hout⟩ := except_map_cons_ok hu
        subst hout
        rw [vu_ascii (by norm_num)] at hvrest
        rw [vu_ascii (by norm_num)]
        exact ih rest2 (by simp at hlen; omega) hvrest t ht
      by_cases he47 : e = 47
      · subst he47
        rw [unescape_slash] at hu
        obtain ⟨t, ht, hout⟩ := except_map_cons_ok hu
        subst hout
        rw [vu_ascii (by norm_num)] at hvrest
        rw [vu_ascii (by norm_num)]
        exact ih rest2 (by simp at hlen; omega) hvrest t ht
      by_cases he98 : e = 98
      · subst he98
        rw [unescape_b] at hu
        obtain ⟨t, ht, hout⟩ := except_map_cons_ok hu
        subst hout
        rw [vu_ascii (by norm_num)] at hvrest
        rw [vu_ascii (by norm_num)]
        exact ih rest2 (by simp at hlen; omega) hvrest t ht
      by_cases he102 : e = 102
      · subst he102
        rw [unescape_f] at hu
        obtain ⟨t, ht, hout⟩ := except_map_cons_ok hu
        subst hout
        rw [vu_ascii (by norm_num)] at hvrest
        rw [vu_ascii (by norm_num)]
        exact ih rest2 (by simp at hlen; omega) hvrest t ht
      by_cases he110 : e = 110
      · subst he110
        rw [unescape_n] at hu
        obtain ⟨t, ht, hout⟩ := except_map_cons_ok hu
        subst hout
        rw [vu_ascii (by norm_num)] at hvrest
        rw [vu_ascii (by norm_num)]
        exact ih rest2 (by simp at hlen; omega) hvrest t ht
      by_cases he114 : e = 114
      · subst he114
        rw [unescape_r] at hu
        obtain ⟨t, ht, hout⟩ := except_map_cons_ok hu
        subst hout
        rw [vu_ascii (by norm_num)] at hvrest
        rw [vu_ascii (by norm_num)]
        exact ih rest2 (by simp at hlen; omega) hvrest t ht
      by_cases he116 : e = 116
      · subst he116
        rw [unescape_t] at hu
        obtain ⟨t, ht, hout⟩ := except_map_cons_ok hu
        subst hout
        rw [vu_ascii (by norm_num)] at hvrest
        rw [vu_ascii (by norm_num)]
        exact ih rest2 (by simp at hlen; omega) hvrest t ht
      by_cases he117 : e = 117
      · subst he117
        rw [vu_ascii (by norm_num)] at hvrest
        rcases rest2 with _ | ⟨h1, _ | ⟨h2, _ | ⟨h3, _ | ⟨h4, rest3⟩⟩⟩⟩
        · rw [unescape_u_short (by simp)] at hu
          exact Except.noConfusion hu
        · rw [unescape_u_short (by simp)] at hu
          exact Except.noConfusion hu
        · rw [unescape_u_short (by simp)] at hu
          exact Except.noConfusion hu
        · rw [unescape_u_short (by simp)] at hu
          exact Except.noConfusion hu
        cases hp : parseHexRune [h1, h2, h3, h4] with
        | none =>
          rw [unescape_u_parse_err hp] at hu
          exact Except.noConfusion hu
        | some r =>
          obtain ⟨a1, a2, a3, a4, hr16⟩ := parseHexRune_some_facts hp
          obtain ⟨d1, hd1⟩ := Option.isSome_iff_exists.mp a1
          obtain ⟨d2, hd2⟩ := Option.isSome_iff_exists.mp a2
          obtain ⟨d3, hd3⟩ := Option.isSome_iff_exists.mp a3
          obtain ⟨d4, hd4⟩ := Option.isSome_iff_exists.mp a4
          have hbd1 := hexVal_some_bounds hd1
          have hbd2 := hexVal_some_bounds hd2
          have hbd3 := hexVal_some_bounds hd3
          have hbd4 := hexVal_some_bounds hd4
          have hvr3 : validUtf8 rest3 = true := by
            rw [vu_ascii (by omega), vu_ascii (by omega), vu_ascii (by omega),
              vu_ascii (by omega)] at hvrest
            exact hvrest
          by_cases hr : 55296 ≤ r ∧ r ≤ 56319
          · cases hsplit : lowSurrogateSplit rest3 with
            | none =>
              rw [unescape_u_single hp (Or.inr hsplit)] at hu
              obtain ⟨t, ht, hout⟩ := except_map_append_ok hu
              subst hout
              rw [validUtf8_encodeRune]
              exact ih rest3 (by simp at hlen; omega) hvr3 t ht
            | some pr =>
              rcases pr with ⟨r2, rest4⟩
              rw [unescape_u_pair hp hr hsplit] at hu
              obtain ⟨t, ht, hout⟩ := except_map_append_ok hu
              rw [hout]
              obtain ⟨g1, g2, g3, g4, heq, hq, _, _⟩ := lowSurrogateSplit_some hsplit
              obtain ⟨e1, e2, e3, e4, _⟩ := parseHexRune_some_facts hq
              obtain ⟨f1, hf1⟩ := Option.isSome_iff_exists.mp e1
              obtain ⟨f2, hf2⟩ := Option.isSome_iff_exists.mp e2
              obtain ⟨f3, hf3⟩ := Option.isSome_iff_exists.mp e3
              obtain ⟨f4, hf4⟩ := Option.isSome_iff_exists.mp e4
              have hg1 := hexVal_some_bounds hf1
              have hg2 := hexVal_some_bounds hf2
              have hg3 := hexVal_some_bounds hf3
              have hg4 := hexVal_some_bounds hf4
              have hvr4 : validUtf8 rest4 = true := by
                rw [heq] at hvr3
                rw [vu_ascii (by norm_num), vu_ascii (by norm_num),
                  vu_ascii (by omega), vu_ascii (by omega), vu_ascii (by omega),
                  vu_ascii (by omega)] at hvr3
                exact hvr3
              rw [validUtf8_encodeRune]
              have hlen4 : rest4.length ≤ n := by
                have hcl := congrArg List.length heq
                simp at hcl hlen
                omega
              exact ih rest4 hlen4 hvr4 t ht
          · rw [unescape_u_single hp (Or.inl hr)] at hu
            obtain ⟨t, ht, hout⟩ := except_map_append_ok hu
            subst hout
            rw [validUtf8_encodeRune]
            exact ih rest3 (by simp at hlen; omega) hvr3 t ht
      rw [unescape_invalid_char rest2
        ⟨he34, he92, he47, he98, he102, he110, he114, he116, he117⟩] at hu
      exact Except.noConfusion hu
    by_cases hlow : b < 128
    · rw [unescape_cons_ne hb92] at hu
      obtain ⟨t, ht, hout⟩ := except_map_cons_ok hu
      subst hout
      rw [vu_ascii hlow] at hv
      rw [vu_ascii hlow]
      exact ih rest (by simp at hlen; omega) hv t ht
    · obtain ⟨bs, rest2, hsp, hl1, hl3, hbs, hvr2, hclose⟩ :=
        validUtf8_head_high (by omega) hv
      subst hsp
      have hnb : ∀ x ∈ b :: bs, x ≠ 92 := by
        intro x hx
        rcases List.mem_cons.mp hx with rfl | hx2
        · omega
        · have := hbs x hx2
          omega
      rw [show b :: (bs ++ rest2) = (b :: bs) ++ rest2 from rfl,
        unescape_append_safe hnb] at hu
      obtain ⟨t, ht, hout⟩ := except_map_append_ok hu
      subst hout
      have hvt : validUtf8 t = true := by
        refine ih rest2 ?_ hvr2 t ht
        simp [List.length_append] at hlen
        omega
      exact hclose t hvt

/-- C10: on any valid UTF-8 input on which jsonUnescape succeeds, its
output is again valid UTF-8 — in particular escapes of unpaired surrogate
values never produce invalid UTF-8 bytes (they become U+FFFD). -/
theorem c10_unescape_valid_utf8 (s out : List Nat) (hv : validUtf8 s = true)
    (h : jsonUnescape s = Except.ok out) : validUtf8 out = true :=
  unescape_preserves_validUtf8 s.length s le_rfl hv out h

/-- Witness for C10 at the input: letter a, lone escape backslash-uD800,
then the two UTF-8 bytes of U+00E9; the output replaces the unpaired
surrogate by the bytes of U+FFFD. -/
theorem c10_witness :
    validUtf8 [97, 92, 117, 100, 56, 48, 48, 195, 169] = true ∧
      validUtf8 [97, 239, 191, 189, 195, 169] = true :=
  ⟨by decide,
   c10_unescape_valid_utf8 [97, 92, 117, 100, 56, 48, 48, 195, 169]
     [97, 239, 191, 189, 195, 169] (by decide)
     (by
       rw [unescape_cons_ne (by norm_num),
         unescape_u_single (show parseHexRune [100, 56, 48, 48] = some 55296 by decide)
           (Or.inr (by decide)),
         unescape_cons_ne (by norm_num), unescape_cons_ne (by norm_num),
         unescape_nil]
       rfl)⟩

end Jsonescape
